import Mathlib

/-!
Verification development for the Kontext-Hack podcast pipeline
(src/podcast/script_parser.py, audio_generator.py, video_generator.py,
video_compiler.py, caption_generator.py and src/main.py).

The Python functions are shallowly embedded as total Lean functions.
External I/O (HTTP calls to ElevenLabs / Sync / ZapCap, the filesystem,
subprocess invocation) is modelled by explicit environment parameters:
a file-existence predicate, per-attempt poll responses, download-success
flags, and a fuel bound for the one unbounded polling loop. Side effects
that the claims talk about (directory creation, external process
invocation, job submission, result download) are made observable either
as an explicit event trace or as a counter returned alongside the result.
-/

/-! ## Path and string helpers (str.strip, os.path.basename, os.path.splitext)

These are written by structural recursion over the character list so that
they reduce on literals inside proofs. -/

/-- Model of Python str.strip() with no arguments: remove leading and
trailing whitespace (the pipeline's texts are ASCII, where Python's and
Lean's whitespace classes agree). -/
def pyStrip (s : String) : String :=
  ⟨(((s.data.dropWhile Char.isWhitespace).reverse).dropWhile
      Char.isWhitespace).reverse⟩

/-- Model of Python os.path.basename: the component after the last slash. -/
def basename (p : String) : String :=
  ⟨(p.data.reverse.takeWhile (fun c => c ≠ '/')).reverse⟩

/-- Model of the root part of Python os.path.splitext: the name with the
final dot-suffix removed (the whole name when it has no dot; the pipeline's
filenames never begin with a dot, so the hidden-file special case of
os.path.splitext is not modelled). -/
def splitext_root (p : String) : String :=
  match p.data.reverse.dropWhile (fun c => c ≠ '.') with
  | [] => p
  | _ :: rest => ⟨rest.reverse⟩

/-! ## script_parser.parse_clips_json -/

/-- One entry of a clip's dialogue_lines array; both fields are read with
dict.get defaults ("Unknown" and "") in the source, hence Option. -/
structure DialogueLine where
  speaker : Option String
  text : Option String
deriving DecidableEq, Repr

/-- One entry of clips_ranked; dialogue_lines is read with a [] default. -/
structure Clip where
  dialogue_lines : Option (List DialogueLine)
deriving DecidableEq, Repr

/-- The clips JSON document. clips_ranked is none when the document is
falsy or the clips_ranked key is absent. -/
structure ClipsData where
  clips_ranked : Option (List Clip)
deriving DecidableEq, Repr

/-- A parsed script segment: speaker plus stripped text. -/
structure Segment where
  speaker : String
  text : String
deriving DecidableEq, Repr

/-- The distinct ValueError messages raised by parse_clips_json. -/
inductive ParseError where
  | invalidData
  | noClip (idx : Nat)
  | noDialogue
deriving DecidableEq, Repr

/-- The Speaker A / Speaker B to person1 / person2 renaming done inside the
dialogue-line loop of parse_clips_json; other names pass through. -/
def mapSpeaker (s : String) : String :=
  if s = "Speaker A" then "person1"
  else if s = "Speaker B" then "person2"
  else s

/-- One iteration of the dialogue-line loop of parse_clips_json: map the
speaker, and append the segment only when the stripped text is non-empty. -/
def segAppend (segments : List Segment) (line : DialogueLine) : List Segment :=
  let speaker := mapSpeaker (line.speaker.getD "Unknown")
  let text := line.text.getD ""
  if pyStrip text ≠ "" then segments ++ [⟨speaker, pyStrip text⟩] else segments

/-- Embedding of script_parser.parse_clips_json (src/podcast/script_parser.py,
lines 64-107). Raising ValueError is modelled with Except.error; after the
length guard, clips[clip_index] is the total lookup getD. -/
def parse_clips_json : ClipsData → Nat → Except ParseError (List Segment)
  | ⟨none⟩, _ => .error .invalidData
  | ⟨some clips⟩, clip_index =>
    if clips.length ≤ clip_index then .error (.noClip clip_index)
    else
      let selected := clips.getD clip_index ⟨none⟩
      let dialogue_lines := selected.dialogue_lines.getD []
      if dialogue_lines = [] then .error .noDialogue
      else .ok (dialogue_lines.foldl segAppend [])

/-- Per-line view of the loop body, used to characterise the loop: the
segment produced by a usable line, none for a dropped line. -/
def lineToSegment (line : DialogueLine) : Option Segment :=
  let speaker := mapSpeaker (line.speaker.getD "Unknown")
  let text := line.text.getD ""
  if pyStrip text ≠ "" then some ⟨speaker, pyStrip text⟩ else none

/-! ## audio_generator -/

/-- The VOICE_MAPPINGS dict of src/podcast/audio_generator.py. -/
def VOICE_MAPPINGS (speaker : String) : Option String :=
  if speaker = "person1" then some "6OzrBCQf8cjERkYgzSg8"
  else if speaker = "person2" then some "VCgLBmBjldJmfphyB8sZ"
  else none

inductive AudioError where
  | noVoice (speaker : String)
deriving DecidableEq, Repr

/-- One entry of the audio_files list built by generate_all_audio. -/
structure AudioFile where
  segment_index : Nat
  speaker : String
  text : String
  audio_path : String
deriving DecidableEq, Repr

/-- Embedding of audio_generator.generate_audio_for_segment (lines 18-53).
The ElevenLabs synthesis call is external I/O; the function's observable
bookkeeping is the voice lookup (ValueError when absent) and the output
path speaker_{hash(text) % 10000}.mp3. Python's salted string hash is the
parameter h. -/
def generate_audio_for_segment (h : String → Int) (text speaker output_dir : String) :
    Except AudioError String :=
  match VOICE_MAPPINGS speaker with
  | none => .error (.noVoice speaker)
  | some _ =>
    .ok (output_dir ++ "/" ++ speaker ++ "_" ++ toString (h text % 10000) ++ ".mp3")

/-- The enumerate loop of generate_all_audio, carrying the running index. -/
def audioLoop (h : String → Int) (output_dir : String) :
    List Segment → Nat → Except AudioError (List AudioFile)
  | [], _ => .ok []
  | seg :: rest, i =>
    match generate_audio_for_segment h seg.text seg.speaker output_dir with
    | .error e => .error e
    | .ok path =>
      (audioLoop h output_dir rest (i + 1)).map
        (fun files => ⟨i, seg.speaker, seg.text, path⟩ :: files)

/-- Embedding of audio_generator.generate_all_audio (lines 55-88). -/
def generate_all_audio (h : String → Int) (segments : List Segment)
    (output_dir : String) : Except AudioError (List AudioFile) :=
  audioLoop h output_dir segments 0

/-! ## video_generator -/

/-- The VIDEO_MAPPINGS dict of src/podcast/video_generator.py. -/
def VIDEO_MAPPINGS (speaker : String) : Option String :=
  if speaker = "person1" then some "podcast/assets/man_1.mp4"
  else if speaker = "person2" then some "podcast/assets/man_2.mp4"
  else none

inductive VideoError where
  | missingAsset (speaker : String)
  | jobFailed
  | noOutputUrl
  | downloadError
deriving DecidableEq, Repr

/-- One response of sync_client.generations.get: a status string plus the
optional output_url field. -/
structure SyncGen where
  status : String
  output_url : Option String
deriving DecidableEq, Repr

/-- Embedding of the unbounded polling loop of generate_video_for_segment
(video_generator.py lines 61-84). gen k is the k-th poll response, dOk
whether the download of the result succeeds, out the output path. The
Python loop is while True; fuel bounds the model, and none means the loop
is still running after consuming all fuel. The Nat in the result counts
result-download (fetch) calls. -/
def syncPoll (gen : Nat → SyncGen) (dOk : Bool) (out : String) :
    Nat → Nat → Option (Except VideoError String × Nat)
  | 0, _ => none
  | fuel + 1, k =>
    let g := gen k
    if g.status = "COMPLETED" then
      match g.output_url with
      | some _ => some ((if dOk then .ok out else .error .downloadError), 1)
      | none => some (.error .noOutputUrl, 0)
    else if g.status = "ERROR" then some (.error .jobFailed, 0)
    else syncPoll gen dOk out fuel (k + 1)

/-- One entry of the video_files list built by generate_all_videos. -/
structure VideoFile where
  segment_index : Nat
  speaker : String
  audio_path : String
  video_path : String
deriving DecidableEq, Repr

/-- The output path computed by generate_video_for_segment (lines 39-41). -/
def syncOutputPath (audio_path output_dir : String) : String :=
  output_dir ++ "/" ++ splitext_root (basename audio_path) ++ "_synced.mp4"

/-- Embedding of generate_video_for_segment (video_generator.py lines
17-88). fs is os.path.exists; job abstracts the submit-poll-download block
(whose polling behaviour is modelled separately by syncPoll) as the
outcome of one lip-sync job on (base video, audio). The Nat in the result
counts lip-sync job submissions: the asset check runs before any
submission, so a missing asset submits nothing. -/
def generate_video_for_segment (fs : String → Bool)
    (job : String → String → Except VideoError Unit)
    (audio_path speaker output_dir : String) :
    Except VideoError String × Nat :=
  match VIDEO_MAPPINGS speaker with
  | none => (.error (.missingAsset speaker), 0)
  | some base =>
    if fs base then
      ((job base audio_path).map (fun _ => syncOutputPath audio_path output_dir), 1)
    else (.error (.missingAsset speaker), 0)

/-- Embedding of generate_all_videos (video_generator.py lines 91-124):
sequential per-segment processing, aborting on the first error, totalling
the number of lip-sync jobs submitted. -/
def generate_all_videos (fs : String → Bool)
    (job : String → String → Except VideoError Unit)
    (audio_files : List AudioFile) (output_dir : String) :
    Except VideoError (List VideoFile) × Nat :=
  match audio_files with
  | [] => (.ok [], 0)
  | a :: rest =>
    match generate_video_for_segment fs job a.audio_path a.speaker output_dir with
    | (.error e, n) => (.error e, n)
    | (.ok vp, n) =>
      let (r, m) := generate_all_videos fs job rest output_dir
      (r.map (fun vs => ⟨a.segment_index, a.speaker, a.audio_path, vp⟩ :: vs), n + m)

/-- A speaker whose base video asset is mapped and present on disk. -/
def assetOk (fs : String → Bool) (speaker : String) : Prop :=
  ∃ base, VIDEO_MAPPINGS speaker = some base ∧ fs base = true

/-! ## video_compiler.compile_podcast -/

/-- One entry of the video_files list consumed by compile_podcast. -/
structure VideoInfo where
  segment_index : Nat
  video_path : String
deriving DecidableEq, Repr

/-- The target resolution constants of compile_podcast. -/
def target_width : Nat := 720

def target_height : Nat := 1280

/-- The ascending sort by segment_index at line 35 of video_compiler.py
(Python sorted is a stable mergesort on the key). -/
def sortedVideos (video_files : List VideoInfo) : List VideoInfo :=
  video_files.mergeSort (fun a b => a.segment_index ≤ b.segment_index)

/-- The i-th scale/pad/setsar chain string of the filter graph (line 44). -/
def scalingPart (i : Nat) : String :=
  "[" ++ toString i ++ ":v]scale=" ++ toString target_width ++ ":" ++
    toString target_height ++
    ":force_original_aspect_ratio=decrease,pad=" ++ toString target_width ++
    ":" ++ toString target_height ++
    ":(ow-iw)/2:(oh-ih)/2:color=black,setsar=1[v" ++ toString i ++ "]"

/-- The i-th concat operand string "[vi][i:a:0]" (line 45). -/
def concatInput (i : Nat) : String :=
  "[v" ++ toString i ++ "][" ++ toString i ++ ":a:0]"

/-- The -i input argument pairs, one per video in sorted order (line 42);
abspath models os.path.abspath. -/
def inputArgs (abspath : String → String) (video_files : List VideoInfo) :
    List String :=
  ((sortedVideos video_files).map
    (fun v => ["-i", abspath v.video_path])).flatten

/-- The filter_complex string of compile_podcast (line 48): the joined
scale/pad chains, the concat operands, and the concat filter itself. -/
def filterComplexStr (video_files : List VideoInfo) : String :=
  let idxs := List.range (sortedVideos video_files).length
  String.intercalate ";" (idxs.map scalingPart) ++ ";" ++
    String.join (idxs.map concatInput) ++
    "concat=n=" ++ toString video_files.length ++ ":v=1:a=1[outv][outa]"

/-- The full ffmpeg command list of compile_podcast (lines 50-60). -/
def ffmpegCommand (abspath : String → String) (video_files : List VideoInfo)
    (output_path : String) : List String :=
  ["ffmpeg", "-y"] ++ inputArgs abspath video_files ++
    ["-filter_complex", filterComplexStr video_files,
     "-map", "[outv]", "-map", "[outa]", output_path]

inductive CompileError where
  | emptyInput
  | compositionError
deriving DecidableEq, Repr

/-- Observable steps of compile_podcast, in execution order: the makedirs
call, the non-empty validation, the default-filename computation, and the
subprocess.run invocation. -/
inductive CompileEvent where
  | mkdir (dir : String)
  | validateFail
  | validateOk
  | computeName (name : String)
  | runProcess (cmd : List String)
deriving DecidableEq, Repr

def CompileEvent.isComputeName : CompileEvent → Bool
  | .computeName _ => true
  | _ => false

def CompileEvent.isRunProcess : CompileEvent → Bool
  | .runProcess _ => true
  | _ => false

/-- Result of a compile_podcast call: the ordered event trace plus the
returned path or raised error. -/
structure CompileOutcome where
  events : List CompileEvent
  result : Except CompileError String
deriving Repr

/-- Embedding of video_compiler.compile_podcast (lines 6-73). run_ok is
whether the external ffmpeg process exits zero (CalledProcessError is
re-raised, modelled as compositionError); now is the strftime timestamp
used for the default output name; abspath models os.path.abspath.
Statement order follows the source: makedirs, the empty-input check, the
default-name computation, then the subprocess invocation. -/
def compile_podcast (abspath : String → String) (run_ok : Bool) (now : String)
    (video_files : List VideoInfo) (output_dir : String)
    (output_name : Option String) : CompileOutcome :=
  let ev0 := [CompileEvent.mkdir output_dir]
  if video_files = [] then
    ⟨ev0 ++ [.validateFail], .error .emptyInput⟩
  else
    let (nameEvents, name) :=
      match output_name with
      | some n => ([], n)
      | none =>
        let n := "podcast_" ++ now ++ ".mp4"
        ([CompileEvent.computeName n], n)
    let output_path := output_dir ++ "/" ++ name
    let cmd := ffmpegCommand abspath video_files output_path
    ⟨ev0 ++ [.validateOk] ++ nameEvents ++ [.runProcess cmd],
      if run_ok then .ok output_path else .error .compositionError⟩

/-! ## Captioning (main.add_captions_with_zapcap) and the pipeline fallback -/

/-- One poll response of the ZapCap task-status request: either the status
string from a 2xx response, or a raised RequestException. -/
inductive ZapPoll where
  | ok (status : String)
  | requestError
deriving DecidableEq, Repr

inductive CaptionError where
  | noApiKey
  | uploadError
  | taskError
  | pollError
  | jobFailed
  | downloadError
  | timeout
deriving DecidableEq, Repr

/-- Embedding of the bounded polling loop of add_captions_with_zapcap
(src/main.py lines 101-136; identically caption_generator.add_captions
lines 82-121): poll k is the k-th status response, dOk whether the
download of the captioned file succeeds, out the output path. Fuel starts
at max_attempts = 300; exhausting it raises the timeout error. The Nat in
the result counts result-download (fetch) calls. -/
def zapPollLoop (poll : Nat → ZapPoll) (dOk : Bool) (out : String) :
    Nat → Nat → Except CaptionError String × Nat
  | 0, _ => (.error .timeout, 0)
  | fuel + 1, k =>
    match poll k with
    | .requestError => (.error .pollError, 0)
    | .ok s =>
      if s = "completed" then
        ((if dOk then .ok out else .error .downloadError), 1)
      else if s = "failed" then (.error .jobFailed, 0)
      else zapPollLoop poll dOk out fuel (k + 1)

/-- External-world parameters of one add_captions_with_zapcap call. -/
structure ZapEnv where
  hasApiKey : Bool
  uploadOk : Bool
  taskOk : Bool
  poll : Nat → ZapPoll
  downloadOk : Bool

/-- Embedding of main.add_captions_with_zapcap (src/main.py lines 47-140):
missing API key raises; upload and task-creation failures raise; otherwise
the 300-attempt poll loop decides the outcome. The Nat counts
result-download calls. -/
def add_captions_with_zapcap (env : ZapEnv) (video_path output_dir : String) :
    Except CaptionError String × Nat :=
  if env.hasApiKey = false then (.error .noApiKey, 0)
  else if env.uploadOk = false then (.error .uploadError, 0)
  else if env.taskOk = false then (.error .taskError, 0)
  else
    let output_path :=
      output_dir ++ "/" ++ splitext_root (basename video_path) ++ "_captioned.mp4"
    zapPollLoop env.poll env.downloadOk output_path 300 0

/-- Embedding of step 9 of main.full_pipeline (src/main.py lines 268-279):
the captioning call is wrapped in try/except; on success the captioned
path becomes final, on any captioning failure the compiled (uncaptioned)
path is kept. The Bool records whether captioning succeeded. -/
def pipeline_caption_step (env : ZapEnv) (compiled_video_path output_dir : String) :
    String × Bool :=
  match (add_captions_with_zapcap env compiled_video_path output_dir).1 with
  | .ok p => (p, true)
  | .error _ => (compiled_video_path, false)

/-! ## Lemmas about the compositor's sort -/

lemma sortedVideos_perm (l : List VideoInfo) : (sortedVideos l).Perm l :=
  List.mergeSort_perm l _

lemma sortedVideos_pairwise (l : List VideoInfo) :
    (sortedVideos l).Pairwise (fun a b => a.segment_index ≤ b.segment_index) := by
  have h := @List.sorted_mergeSort VideoInfo
      (fun a b => a.segment_index ≤ b.segment_index)
      (fun a b c hab hbc => by
        simp only [decide_eq_true_eq] at *; omega)
      (fun a b => by
        simp only [Bool.or_eq_true, decide_eq_true_eq]; omega) l
  exact h.imp (fun hab => by simpa using hab)

lemma pairwise_lt_of_nodup_indices (l : List VideoInfo)
    (hle : l.Pairwise (fun a b => a.segment_index ≤ b.segment_index))
    (hnd : (l.map VideoInfo.segment_index).Nodup) :
    l.Pairwise (fun a b => a.segment_index < b.segment_index) := by
  have hne : l.Pairwise (fun a b => a.segment_index ≠ b.segment_index) :=
    List.pairwise_map.1 hnd
  exact List.Pairwise.imp₂ (fun a b h1 h2 => lt_of_le_of_ne h1 h2) hle hne

lemma sortedVideos_eq_of_perm (l l' : List VideoInfo) (hp : l'.Perm l)
    (hnd : (l.map VideoInfo.segment_index).Nodup) :
    sortedVideos l' = sortedVideos l := by
  haveI : IsAntisymm VideoInfo (fun a b => a.segment_index < b.segment_index) :=
    ⟨fun a b h1 h2 => absurd (h1.trans h2) (lt_irrefl _)⟩
  have hnd' : (l'.map VideoInfo.segment_index).Nodup :=
    ((hp.map VideoInfo.segment_index).nodup_iff).2 hnd
  have hperm : (sortedVideos l').Perm (sortedVideos l) :=
    ((sortedVideos_perm l').trans hp).trans (sortedVideos_perm l).symm
  have hs1 : (sortedVideos l').Pairwise (fun a b => a.segment_index < b.segment_index) :=
    pairwise_lt_of_nodup_indices _ (sortedVideos_pairwise l')
      (((sortedVideos_perm l').map VideoInfo.segment_index).nodup_iff.2 hnd')
  have hs2 : (sortedVideos l).Pairwise (fun a b => a.segment_index < b.segment_index) :=
    pairwise_lt_of_nodup_indices _ (sortedVideos_pairwise l)
      (((sortedVideos_perm l).map VideoInfo.segment_index).nodup_iff.2 hnd)
  exact List.eq_of_perm_of_sorted hperm hs1 hs2

/-- C1: for every non-empty video-artifact collection with distinct segment
indices and every permutation of its ordering, compile_podcast's sort, its
-i input list and its filter_complex string (hence the concat sequence) are
identical to those of the ascending segment_index-sorted order, and that
order is strictly ascending in segment_index, so the i-th chain and concat
operand always belong to the artifact with the i-th smallest index. -/
theorem compile_podcast_concat_perm_invariant (abspath : String → String)
    (l l' : List VideoInfo) (hp : l'.Perm l)
    (hnd : (l.map VideoInfo.segment_index).Nodup) (hne : l ≠ []) :
    sortedVideos l' = sortedVideos l ∧
    ((sortedVideos l').map VideoInfo.segment_index).Sorted (· < ·) ∧
    inputArgs abspath l' = inputArgs abspath l ∧
    filterComplexStr l' = filterComplexStr l := by
  have hsort := sortedVideos_eq_of_perm l l' hp hnd
  refine ⟨hsort, ?_, ?_, ?_⟩
  · have hnd' : (l'.map VideoInfo.segment_index).Nodup :=
      ((hp.map VideoInfo.segment_index).nodup_iff).2 hnd
    have := pairwise_lt_of_nodup_indices _ (sortedVideos_pairwise l')
      (((sortedVideos_perm l').map VideoInfo.segment_index).nodup_iff.2 hnd')
    exact List.pairwise_map.2 this
  · unfold inputArgs
    rw [hsort]
  · unfold filterComplexStr
    rw [hsort, hp.length_eq]

/-- Witness for C1 at a concrete two-element collection given in swapped
order. -/
theorem compile_podcast_concat_perm_invariant_witness :
    sortedVideos [⟨1, "b.mp4"⟩, ⟨0, "a.mp4"⟩]
        = sortedVideos [⟨0, "a.mp4"⟩, ⟨1, "b.mp4"⟩] ∧
    ((sortedVideos [⟨1, "b.mp4"⟩, ⟨0, "a.mp4"⟩]).map
        VideoInfo.segment_index).Sorted (· < ·) ∧
    inputArgs id [⟨1, "b.mp4"⟩, ⟨0, "a.mp4"⟩]
        = inputArgs id [⟨0, "a.mp4"⟩, ⟨1, "b.mp4"⟩] ∧
    filterComplexStr [⟨1, "b.mp4"⟩, ⟨0, "a.mp4"⟩]
        = filterComplexStr [⟨0, "a.mp4"⟩, ⟨1, "b.mp4"⟩] :=
  compile_podcast_concat_perm_invariant id
    [⟨0, "a.mp4"⟩, ⟨1, "b.mp4"⟩] [⟨1, "b.mp4"⟩, ⟨0, "a.mp4"⟩]
    (List.Perm.swap _ _ _) (by decide) (by decide)

/-- C7: compile_podcast on the empty collection raises the empty-input
ValueError after only the makedirs step: no default name is computed and no
external ffmpeg process is invoked. -/
theorem compile_podcast_empty_input (abspath : String → String) (run_ok : Bool)
    (now output_dir : String) (output_name : Option String) :
    (compile_podcast abspath run_ok now [] output_dir output_name).result
        = .error .emptyInput ∧
    (compile_podcast abspath run_ok now [] output_dir output_name).events
        = [.mkdir output_dir, .validateFail] ∧
    ∀ cmd, CompileEvent.runProcess cmd
        ∉ (compile_podcast abspath run_ok now [] output_dir output_name).events := by
  refine ⟨rfl, rfl, ?_⟩
  intro cmd hmem
  simp [compile_podcast] at hmem

/-- C10 counterexample: on the empty collection with no explicit name, the
trace is exactly makedirs followed by the failing validation — the
timestamped default filename is never computed, contradicting the claim
that it is computed before the validation. -/
theorem compile_podcast_c10_counterexample :
    (compile_podcast id true "20240101_000000" [] "output" none).events
        = [.mkdir "output", .validateFail] ∧
    (compile_podcast id true "20240101_000000" [] "output" none).events.all
        (fun e => !e.isComputeName) = true :=
  ⟨rfl, rfl⟩

/-- C10 amended: compile_podcast creates the output directory before
validating non-emptiness, so a call failing on empty input still performed
the makedirs call; but the timestamped default filename is computed only
after the validation succeeds, not before it. -/
theorem compile_podcast_mkdir_before_validation (abspath : String → String)
    (run_ok : Bool) (now output_dir : String) :
    ((compile_podcast abspath run_ok now [] output_dir none).events
        = [.mkdir output_dir, .validateFail] ∧
      (compile_podcast abspath run_ok now [] output_dir none).result
        = .error .emptyInput) ∧
    ∀ v vs, (compile_podcast abspath run_ok now (v :: vs) output_dir none).events
        = [.mkdir output_dir, .validateOk,
           .computeName ("podcast_" ++ now ++ ".mp4"),
           .runProcess (ffmpegCommand abspath (v :: vs)
             (output_dir ++ "/" ++ ("podcast_" ++ now ++ ".mp4")))] := by
  refine ⟨⟨rfl, rfl⟩, ?_⟩
  intro v vs
  simp [compile_podcast]

/-! ## Lemmas about the polling loops -/

/-- A ZapCap status response that keeps the loop polling: a 2xx response
whose status is neither completed nor failed. -/
def ZapPoll.inProgress : ZapPoll → Bool
  | .ok s => s ≠ "completed" && s ≠ "failed"
  | .requestError => false

/-- A Sync generation response that keeps the loop polling. -/
def SyncGen.inProgress (g : SyncGen) : Bool :=
  g.status ≠ "COMPLETED" && g.status ≠ "ERROR"

lemma zapPollLoop_step (poll : Nat → ZapPoll) (dOk : Bool) (out : String)
    (fuel k : Nat) (h : (poll k).inProgress = true) :
    zapPollLoop poll dOk out (fuel + 1) k = zapPollLoop poll dOk out fuel (k + 1) := by
  cases hp : poll k with
  | requestError => rw [hp] at h; simp [ZapPoll.inProgress] at h
  | ok s =>
    rw [hp] at h
    simp only [ZapPoll.inProgress, Bool.and_eq_true, bne_iff_ne, ne_eq,
      decide_eq_true_eq] at h
    simp only [zapPollLoop]
    rw [hp]
    simp [h.1, h.2]

lemma zapPollLoop_all_in_progress (poll : Nat → ZapPoll) (dOk : Bool)
    (out : String) (h : ∀ k, (poll k).inProgress = true) :
    ∀ fuel k, zapPollLoop poll dOk out fuel k = (.error .timeout, 0) := by
  intro fuel
  induction fuel with
  | zero => intro k; rfl
  | succ n ih =>
    intro k
    rw [zapPollLoop_step poll dOk out n k (h k)]
    exact ih (k + 1)

lemma syncPoll_step (gen : Nat → SyncGen) (dOk : Bool) (out : String)
    (fuel k : Nat) (h : (gen k).inProgress = true) :
    syncPoll gen dOk out (fuel + 1) k = syncPoll gen dOk out fuel (k + 1) := by
  simp only [SyncGen.inProgress, Bool.and_eq_true, bne_iff_ne, ne_eq,
    decide_eq_true_eq] at h
  simp only [syncPoll]
  simp [h.1, h.2]

lemma syncPoll_all_in_progress (gen : Nat → SyncGen) (dOk : Bool)
    (out : String) (h : ∀ k, (gen k).inProgress = true) :
    ∀ fuel k, syncPoll gen dOk out fuel k = none := by
  intro fuel
  induction fuel with
  | zero => intro k; rfl
  | succ n ih =>
    intro k
    rw [syncPoll_step gen dOk out n k (h k)]
    exact ih (k + 1)

lemma zapPollLoop_reach (poll : Nat → ZapPoll) (dOk : Bool) (out : String) :
    ∀ j fuel k, j < fuel → (∀ i, i < j → (poll (k + i)).inProgress = true) →
    (poll (k + j) = .ok "completed" →
      zapPollLoop poll dOk out fuel k
        = ((if dOk then .ok out else .error .downloadError), 1)) ∧
    (poll (k + j) = .ok "failed" →
      zapPollLoop poll dOk out fuel k = (.error .jobFailed, 0)) := by
  intro j
  induction j with
  | zero =>
    intro fuel k hfuel _
    obtain ⟨f, rfl⟩ : ∃ f, fuel = f + 1 :=
      ⟨fuel - 1, by omega⟩
    constructor
    · intro hc
      unfold zapPollLoop
      simp only [Nat.add_zero] at hc
      rw [hc]
      simp
    · intro hc
      unfold zapPollLoop
      simp only [Nat.add_zero] at hc
      rw [hc]
      simp
  | succ m ih =>
    intro fuel k hfuel hpre
    obtain ⟨f, rfl⟩ : ∃ f, fuel = f + 1 := ⟨fuel - 1, by omega⟩
    have h0 : (poll k).inProgress = true := by
      have := hpre 0 (by omega)
      simpa using this
    rw [zapPollLoop_step poll dOk out f k h0]
    have hpre' : ∀ i, i < m → (poll (k + 1 + i)).inProgress = true := by
      intro i hi
      have := hpre (i + 1) (by omega)
      simpa [Nat.add_assoc, Nat.add_comm 1 i] using this
    have := ih f (k + 1) (by omega) hpre'
    simpa [Nat.add_assoc, Nat.add_comm 1 m] using this

lemma syncPoll_reach (gen : Nat → SyncGen) (dOk : Bool) (out : String) :
    ∀ j fuel k, j < fuel → (∀ i, i < j → (gen (k + i)).inProgress = true) →
    ((gen (k + j)).status = "COMPLETED" → (gen (k + j)).output_url.isSome = true →
      syncPoll gen dOk out fuel k
        = some ((if dOk then .ok out else .error .downloadError), 1)) ∧
    ((gen (k + j)).status = "ERROR" →
      syncPoll gen dOk out fuel k = some (.error .jobFailed, 0)) := by
  intro j
  induction j with
  | zero =>
    intro fuel k hfuel _
    obtain ⟨f, rfl⟩ : ∃ f, fuel = f + 1 := ⟨fuel - 1, by omega⟩
    constructor
    · intro hc hurl
      unfold syncPoll
      simp only [Nat.add_zero] at hc hurl
      obtain ⟨u, hu⟩ := Option.isSome_iff_exists.1 hurl
      simp [hc, hu]
    · intro hc
      unfold syncPoll
      simp only [Nat.add_zero] at hc
      have : (gen k).status ≠ "COMPLETED" := by rw [hc]; decide
      simp [hc, this]
  | succ m ih =>
    intro fuel k hfuel hpre
    obtain ⟨f, rfl⟩ : ∃ f, fuel = f + 1 := ⟨fuel - 1, by omega⟩
    have h0 : (gen k).inProgress = true := by
      have := hpre 0 (by omega)
      simpa using this
    rw [syncPoll_step gen dOk out f k h0]
    have hpre' : ∀ i, i < m → (gen (k + 1 + i)).inProgress = true := by
      intro i hi
      have := hpre (i + 1) (by omega)
      simpa [Nat.add_assoc, Nat.add_comm 1 i] using this
    have := ih f (k + 1) (by omega) hpre'
    simpa [Nat.add_assoc, Nat.add_comm 1 m] using this

/-- C2: whenever the compositor has produced a file and the captioning call
fails with any of its errors (timeout, explicit job failure, submission or
upload errors, download error), full_pipeline's step 9 does not abort: it
returns the compositor's output path as the final video, flagged as not
captioned. -/
theorem pipeline_falls_back_on_caption_failure (env : ZapEnv)
    (compiled_video_path output_dir : String) (e : CaptionError)
    (h : (add_captions_with_zapcap env compiled_video_path output_dir).1 = .error e) :
    pipeline_caption_step env compiled_video_path output_dir
      = (compiled_video_path, false) := by
  unfold pipeline_caption_step
  rw [h]

/-- Witness for C2: a run whose captioning polls never leave the processing
state times out, and the pipeline keeps the compiled file. -/
theorem pipeline_falls_back_on_caption_failure_witness :
    pipeline_caption_step ⟨true, true, true, fun _ => .ok "processing", true⟩
        "output/app_clip_0.mp4" "output"
      = ("output/app_clip_0.mp4", false) :=
  pipeline_falls_back_on_caption_failure _ _ _ .timeout
    (by
      show (zapPollLoop (fun _ => .ok "processing") true
          ("output" ++ "/" ++ splitext_root (basename "output/app_clip_0.mp4")
            ++ "_captioned.mp4") 300 0).1
        = Except.error CaptionError.timeout
      rw [zapPollLoop_all_in_progress (fun _ => .ok "processing") true
        ("output" ++ "/" ++ splitext_root (basename "output/app_clip_0.mp4")
          ++ "_captioned.mp4") (fun k => rfl) 300 0])

/-- C3 counterexample: the lip-sync polling loop of
generate_video_for_segment is while True with no attempt bound: on a job
that reports PROCESSING forever there is no attempt count N past which the
loop stops with a timeout error — it simply never terminates, for any
amount of fuel. -/
theorem sync_poll_no_attempt_bound :
    ¬ ∃ N, ∀ fuel, N < fuel →
      (syncPoll (fun _ => ⟨"PROCESSING", none⟩) true "temp/out_synced.mp4"
        fuel 0).isSome = true := by
  rintro ⟨N, h⟩
  have h1 := h (N + 1) (by omega)
  rw [syncPoll_all_in_progress (fun _ => ⟨"PROCESSING", none⟩) true
    "temp/out_synced.mp4" (fun k => rfl) (N + 1) 0] at h1
  simp at h1

/-- C3 amended: the captioning driver's polling loop is bounded by
max_attempts = 300 — on a job that never leaves the in-progress states it
stops with the timeout error and never calls the result download — but the
lip-sync polling loop of generate_video_for_segment is unbounded: on such
a job it never returns at all, for any fuel (and the speech-synthesis call
has no polling loop). -/
theorem polling_bounded_only_for_captions (poll : Nat → ZapPoll) (dz : Bool)
    (oz : String) (gen : Nat → SyncGen) (ds : Bool) (os : String)
    (hz : ∀ k, (poll k).inProgress = true)
    (hs : ∀ k, (gen k).inProgress = true) :
    zapPollLoop poll dz oz 300 0 = (.error .timeout, 0) ∧
    ∀ fuel k, syncPoll gen ds os fuel k = none := by
  exact ⟨zapPollLoop_all_in_progress poll dz oz hz 300 0,
    syncPoll_all_in_progress gen ds os hs⟩

/-- Witness for the amended C3 at constantly-in-progress poll traces. -/
theorem polling_bounded_only_for_captions_witness :
    zapPollLoop (fun _ => .ok "processing") true "output/p_captioned.mp4" 300 0
        = (.error .timeout, 0) ∧
    syncPoll (fun _ => ⟨"PROCESSING", none⟩) true "temp/a_synced.mp4" 7 0 = none := by
  have h := polling_bounded_only_for_captions (fun _ => .ok "processing") true
    "output/p_captioned.mp4" (fun _ => ⟨"PROCESSING", none⟩) true
    "temp/a_synced.mp4" (fun k => rfl) (fun k => rfl)
  exact ⟨h.1, h.2 7 0⟩

/-- C5: in both async-job drivers, when the poll trace is in-progress up to
attempt j and reports completion at attempt j (within bounds), the result
is downloaded exactly once; and when attempt j reports the failure status,
the driver stops immediately with the job-failure error and the result is
never downloaded — the job is not retried. -/
theorem job_driver_fetch_semantics (poll : Nat → ZapPoll) (dz : Bool)
    (oz : String) (j : Nat) (gen : Nat → SyncGen) (ds : Bool) (os : String)
    (m fuel : Nat) :
    (j < 300 → (∀ i, i < j → (poll i).inProgress = true) →
      (poll j = .ok "completed" →
        zapPollLoop poll dz oz 300 0
          = ((if dz then .ok oz else .error .downloadError), 1)) ∧
      (poll j = .ok "failed" →
        zapPollLoop poll dz oz 300 0 = (.error .jobFailed, 0))) ∧
    (m < fuel → (∀ i, i < m → (gen i).inProgress = true) →
      ((gen m).status = "COMPLETED" → (gen m).output_url.isSome = true →
        syncPoll gen ds os fuel 0
          = some ((if ds then .ok os else .error .downloadError), 1)) ∧
      ((gen m).status = "ERROR" →
        syncPoll gen ds os fuel 0 = some (.error .jobFailed, 0))) := by
  constructor
  · intro hj hpre
    have := zapPollLoop_reach poll dz oz j 300 0 hj (by simpa using hpre)
    simpa using this
  · intro hm hpre
    have := syncPoll_reach gen ds os m fuel 0 hm (by simpa using hpre)
    simpa using this

/-- Witness for C5: a pending-pending-completed trace downloads once in
both drivers. -/
theorem job_driver_fetch_semantics_witness :
    zapPollLoop (fun k => if k < 2 then .ok "pending" else .ok "completed")
        true "output/v_captioned.mp4" 300 0 = (.ok "output/v_captioned.mp4", 1) ∧
    syncPoll (fun k => if k < 2 then ⟨"PROCESSING", none⟩ else ⟨"COMPLETED", some "u"⟩)
        true "temp/v_synced.mp4" 10 0 = some (.ok "temp/v_synced.mp4", 1) := by
  have h := job_driver_fetch_semantics
    (fun k => if k < 2 then .ok "pending" else .ok "completed") true
    "output/v_captioned.mp4" 2
    (fun k => if k < 2 then ⟨"PROCESSING", none⟩ else ⟨"COMPLETED", some "u"⟩) true
    "temp/v_synced.mp4" 2 10
  refine ⟨?_, ?_⟩
  · have := (h.1 (by omega) (by decide)).1 (by decide)
    simpa using this
  · have := (h.2 (by omega) (by decide)).1 (by decide) (by decide)
    simpa using this

/-! ## Lemmas about parse_clips_json and generate_all_audio -/

lemma foldl_segAppend_eq (lines : List DialogueLine) :
    ∀ acc, lines.foldl segAppend acc = acc ++ lines.filterMap lineToSegment := by
  induction lines with
  | nil => intro acc; simp
  | cons l rest ih =>
    intro acc
    rw [List.foldl_cons, ih]
    by_cases hc : pyStrip (l.text.getD "") ≠ ""
    · simp [segAppend, lineToSegment, hc, List.append_assoc]
    · simp [segAppend, lineToSegment, hc]

lemma lineToSegment_text_ne (line : DialogueLine) (s : Segment)
    (h : lineToSegment line = some s) : s.text ≠ "" := by
  unfold lineToSegment at h
  by_cases hc : pyStrip (line.text.getD "") ≠ ""
  · rw [if_pos hc] at h
    injection h with h'
    rw [← h']
    exact hc
  · rw [if_neg hc] at h
    cases h

lemma parse_clips_json_ok (data : ClipsData) (idx : Nat) (segs : List Segment)
    (h : parse_clips_json data idx = .ok segs) :
    ∃ clips, data.clips_ranked = some clips ∧ idx < clips.length ∧
      (clips.getD idx ⟨none⟩).dialogue_lines.getD [] ≠ [] ∧
      segs = ((clips.getD idx ⟨none⟩).dialogue_lines.getD []).filterMap lineToSegment := by
  obtain ⟨cr⟩ := data
  cases cr with
  | none => cases h
  | some clips =>
    simp only [parse_clips_json] at h
    split at h
    · cases h
    · rename_i hle
      split at h
      · cases h
      · rename_i hne
        injection h with h'
        exact ⟨clips, rfl, by omega, hne,
          by rw [← h', foldl_segAppend_eq, List.nil_append]⟩

lemma audioLoop_ok (h : String → Int) (dir : String) :
    ∀ (segs : List Segment) (i : Nat) (files : List AudioFile),
      audioLoop h dir segs i = .ok files →
      files.length = segs.length ∧
      files.map AudioFile.segment_index = List.range' i segs.length ∧
      files.map AudioFile.speaker = segs.map Segment.speaker ∧
      files.map AudioFile.text = segs.map Segment.text ∧
      ∀ f ∈ files, f.audio_path
        = dir ++ "/" ++ f.speaker ++ "_" ++ toString (h f.text % 10000) ++ ".mp3" := by
  intro segs
  induction segs with
  | nil =>
    intro i files hf
    simp only [audioLoop] at hf
    injection hf with hf'
    subst hf'
    simp
  | cons seg rest ih =>
    intro i files hf
    simp only [audioLoop] at hf
    cases hg : generate_audio_for_segment h seg.text seg.speaker dir with
    | error e => rw [hg] at hf; cases hf
    | ok path =>
      rw [hg] at hf
      cases hr : audioLoop h dir rest (i + 1) with
      | error e => rw [hr] at hf; cases hf
      | ok fs =>
        rw [hr] at hf
        simp only [Except.map, Except.ok.injEq] at hf
        subst hf
        obtain ⟨hlen, hidx, hsp, htx, hpath⟩ := ih (i + 1) fs hr
        refine ⟨by simp [hlen], ?_, by simp [hsp], by simp [htx], ?_⟩
        · simp [hidx, List.range'_succ]
        · intro f hfm
          rcases List.mem_cons.1 hfm with rfl | hfm'
          · unfold generate_audio_for_segment at hg
            cases hv : VOICE_MAPPINGS seg.speaker with
            | none => rw [hv] at hg; cases hg
            | some v =>
              rw [hv] at hg
              injection hg with hg'
              simp [← hg']
          · exact hpath f hfm'

/-- C4: on any clips document accepted by parse_clips_json, the produced
segments are exactly the selected clip's dialogue lines with blank-text
lines dropped, speakers renamed through mapSpeaker (Speaker A to person1,
Speaker B to person2) and text stripped; and when those N >= 1 segments
are fed to generate_all_audio, the successful output has exactly N entries
whose segment indices are 0..N-1 in dialogue order, with no gaps and no
duplicates. -/
theorem segments_dense_indices (h : String → Int) (data : ClipsData)
    (idx : Nat) (segs : List Segment) (files : List AudioFile) (dir : String)
    (hparse : parse_clips_json data idx = .ok segs)
    (haudio : generate_all_audio h segs dir = .ok files)
    (hN : 1 ≤ segs.length) :
    files.map AudioFile.segment_index = List.range segs.length ∧
    (files.map AudioFile.segment_index).Nodup ∧
    files.length = segs.length ∧
    files.map AudioFile.speaker = segs.map Segment.speaker ∧
    files.map AudioFile.text = segs.map Segment.text ∧
    (∃ clips, data.clips_ranked = some clips ∧ idx < clips.length ∧
      segs = ((clips.getD idx ⟨none⟩).dialogue_lines.getD []).filterMap lineToSegment) ∧
    ∀ s ∈ segs, s.text ≠ "" := by
  obtain ⟨hlen, hidx, hsp, htx, _⟩ := audioLoop_ok h dir segs 0 files haudio
  obtain ⟨clips, hcr, hlt, _, hchar⟩ := parse_clips_json_ok data idx segs hparse
  have hrange : files.map AudioFile.segment_index = List.range segs.length := by
    rw [hidx, List.range_eq_range']
  refine ⟨hrange, ?_, hlen, hsp, htx, ⟨clips, hcr, hlt, hchar⟩, ?_⟩
  · rw [hrange]; exact List.nodup_range _
  · intro s hs
    rw [hchar] at hs
    obtain ⟨line, _, hline⟩ := List.mem_filterMap.1 hs
    exact lineToSegment_text_ne line s hline

/-- Witness for C4 at a clip with one blank line among three: the blank
line is dropped and the two audio artifacts carry the dense indices 0, 1. -/
theorem segments_dense_indices_witness :
    ([⟨0, "person1", "hi", "temp/person1_2.mp3"⟩,
      ⟨1, "person1", "bye", "temp/person1_3.mp3"⟩] : List AudioFile).map
        AudioFile.segment_index
      = List.range ([⟨"person1", "hi"⟩, ⟨"person1", "bye"⟩] : List Segment).length :=
  (segments_dense_indices (fun t => (t.length : Int))
    ⟨some [⟨some [⟨some "Speaker A", some "hi"⟩, ⟨some "Speaker B", some " "⟩,
      ⟨some "Speaker A", some "bye"⟩]⟩]⟩ 0
    [⟨"person1", "hi"⟩, ⟨"person1", "bye"⟩]
    [⟨0, "person1", "hi", "temp/person1_2.mp3"⟩,
     ⟨1, "person1", "bye", "temp/person1_3.mp3"⟩]
    "temp" rfl rfl (by decide)).1

/-- C8 counterexample: a clip whose only dialogue line has whitespace-only
text has zero usable lines, yet parse_clips_json does not raise: it
returns the empty segment list. -/
theorem parse_clips_json_blank_lines_no_error :
    parse_clips_json ⟨some [⟨some [⟨some "Speaker A", some " "⟩]⟩]⟩ 0
      = .ok [] ∧ pyStrip " " = "" :=
  ⟨rfl, rfl⟩

/-- C8 amended: parse_clips_json raises the no-clip ValueError exactly when
the requested index is out of range of clips_ranked, and the no-dialogue
ValueError exactly when the selected clip's dialogue_lines list is empty;
a selected clip whose lines are all blank is not an error: the (then empty)
filtered segment list is returned. -/
theorem parse_clips_json_error_conditions (data : ClipsData) (idx : Nat)
    (clips : List Clip) (hc : data.clips_ranked = some clips) :
    (parse_clips_json data idx = .error (.noClip idx) ↔ clips.length ≤ idx) ∧
    (idx < clips.length →
      (parse_clips_json data idx = .error .noDialogue ↔
        (clips.getD idx ⟨none⟩).dialogue_lines.getD [] = []) ∧
      ((clips.getD idx ⟨none⟩).dialogue_lines.getD [] ≠ [] →
        parse_clips_json data idx
          = .ok (((clips.getD idx ⟨none⟩).dialogue_lines.getD []).filterMap
              lineToSegment))) := by
  obtain ⟨cr⟩ := data
  cases cr with
  | none => cases hc
  | some cl =>
    injection hc with hc'
    subst hc'
    by_cases hle : cl.length ≤ idx
    · have hred : parse_clips_json ⟨some cl⟩ idx = .error (.noClip idx) := by
        simp only [parse_clips_json]
        rw [if_pos hle]
      refine ⟨⟨fun _ => hle, fun _ => hred⟩, ?_⟩
      intro hlt
      omega
    · by_cases hl : (cl.getD idx ⟨none⟩).dialogue_lines.getD [] = []
      · have hred : parse_clips_json ⟨some cl⟩ idx = .error .noDialogue := by
          simp only [parse_clips_json]
          rw [if_neg hle]
          rw [if_pos hl]
        refine ⟨⟨fun hcontra => ?_, fun hge => absurd hge hle⟩, ?_⟩
        · rw [hred] at hcontra
          simp at hcontra
        · intro _
          exact ⟨⟨fun _ => hl, fun _ => hred⟩, fun hne => absurd hl hne⟩
      · have hred : parse_clips_json ⟨some cl⟩ idx
            = .ok (((cl.getD idx ⟨none⟩).dialogue_lines.getD []).foldl segAppend []) := by
          simp only [parse_clips_json]
          rw [if_neg hle]
          rw [if_neg hl]
        refine ⟨⟨fun hcontra => ?_, fun hge => absurd hge hle⟩, ?_⟩
        · rw [hred] at hcontra
          cases hcontra
        · intro _
          refine ⟨⟨fun hcontra => ?_, fun heq => absurd heq hl⟩, ?_⟩
          · rw [hred] at hcontra
            cases hcontra
          · intro _
            rw [hred, foldl_segAppend_eq, List.nil_append]

/-- Witness for the amended C8: with one clip present, index 0 is not the
out-of-range error. -/
theorem parse_clips_json_error_conditions_witness :
    parse_clips_json ⟨some [⟨some [⟨some "Speaker B", some " "⟩]⟩]⟩ 0
        = .error (.noClip 0) ↔
      ([⟨some [⟨some "Speaker B", some " "⟩]⟩] : List Clip).length ≤ 0 :=
  (parse_clips_json_error_conditions
    ⟨some [⟨some [⟨some "Speaker B", some " "⟩]⟩]⟩ 0
    [⟨some [⟨some "Speaker B", some " "⟩]⟩] rfl).1

/-- C6 counterexample: with person1's base asset present and person2's
absent, generate_all_videos on a person1 segment followed by a person2
segment submits one lip-sync job (for person1) before failing on person2's
missing asset — the check is not a pre-flight assertion over the whole
set, which would have submitted zero jobs. -/
theorem generate_all_videos_submits_before_asset_failure :
    generate_all_videos (fun p => p = "podcast/assets/man_1.mp4")
        (fun _ _ => .ok ())
        [⟨0, "person1", "t1", "temp/person1_1.mp3"⟩,
         ⟨1, "person2", "t2", "temp/person2_2.mp3"⟩] "temp"
      = (.error (.missingAsset "person2"), 1) ∧ (1 : Nat) ≠ 0 :=
  ⟨rfl, by decide⟩

/-- C6 amended: the asset check of VideoStage is per segment, not a
pre-flight pass over the whole set: on a segment list whose earlier
segments all have present assets and succeeding jobs, followed by a
segment whose speaker's asset is unmapped or absent, generate_all_videos
raises the missing-asset error only upon reaching that segment, after
having submitted one lip-sync job for every earlier segment. (The
orchestrator in main.py separately runs check_assets over all mapped
speakers before the pipeline starts.) -/
theorem videostage_asset_check_is_per_segment (fs : String → Bool)
    (job : String → String → Except VideoError Unit) (output_dir : String)
    (pre : List AudioFile) (a : AudioFile) (rest : List AudioFile)
    (hpre : ∀ b ∈ pre, assetOk fs b.speaker)
    (hjob : ∀ b ∈ pre, ∀ base, VIDEO_MAPPINGS b.speaker = some base →
      job base b.audio_path = .ok ())
    (hbad : ¬ assetOk fs a.speaker) :
    generate_all_videos fs job (pre ++ a :: rest) output_dir
      = (.error (.missingAsset a.speaker), pre.length) := by
  induction pre with
  | nil =>
    have hhead : generate_video_for_segment fs job a.audio_path a.speaker output_dir
        = (.error (.missingAsset a.speaker), 0) := by
      unfold generate_video_for_segment
      cases hv : VIDEO_MAPPINGS a.speaker with
      | none => rfl
      | some base =>
        by_cases hfs : fs base = true
        · exact absurd ⟨base, hv, hfs⟩ hbad
        · simp [hfs]
    simp [generate_all_videos, hhead]
  | cons b pre ih =>
    obtain ⟨base, hv, hfs⟩ := hpre b (by simp)
    have hj := hjob b (by simp) base hv
    have hhead : generate_video_for_segment fs job b.audio_path b.speaker output_dir
        = (.ok (syncOutputPath b.audio_path output_dir), 1) := by
      unfold generate_video_for_segment
      rw [hv]
      simp [hfs, hj, Except.map]
    have ihres := ih (fun x hx => hpre x (by simp [hx]))
      (fun x hx => hjob x (by simp [hx]))
    simp [generate_all_videos, hhead, ihres, Except.map, Nat.add_comm]

/-- Witness for the amended C6: two person1 segments with present assets
are each submitted before the person2 segment's missing asset aborts the
stage. -/
theorem videostage_asset_check_is_per_segment_witness :
    generate_all_videos (fun p => p = "podcast/assets/man_1.mp4")
        (fun _ _ => .ok ())
        [⟨0, "person1", "u1", "temp/person1_5.mp3"⟩,
         ⟨1, "person1", "u2", "temp/person1_6.mp3"⟩,
         ⟨2, "person2", "u3", "temp/person2_7.mp3"⟩] "temp"
      = (.error (.missingAsset "person2"), 2) := by
  have h := videostage_asset_check_is_per_segment
    (fun p => p = "podcast/assets/man_1.mp4") (fun _ _ => .ok ()) "temp"
    [⟨0, "person1", "u1", "temp/person1_5.mp3"⟩,
     ⟨1, "person1", "u2", "temp/person1_6.mp3"⟩]
    ⟨2, "person2", "u3", "temp/person2_7.mp3"⟩ []
    (by
      intro b hb
      rcases List.mem_cons.1 hb with rfl | hb'
      · exact ⟨"podcast/assets/man_1.mp4", rfl, by decide⟩
      · rcases List.mem_cons.1 hb' with rfl | hb''
        · exact ⟨"podcast/assets/man_1.mp4", rfl, by decide⟩
        · cases hb'')
    (fun b hb base hbase => rfl)
    (by
      rintro ⟨base, hb, hfs⟩
      have : base = "podcast/assets/man_2.mp4" := by
        simpa [VIDEO_MAPPINGS] using hb.symm
      subst this
      simp at hfs)
  simpa using h

/-- C9 counterexample: audio filenames are speaker plus a hash of the text,
not stage plus segment index plus speaker: two distinct segments (indices
0 and 2) with the same speaker and the same text are written to the same
path temp/person1_2.mp3, and the lip-sync output name, derived from the
audio basename, inherits the collision. -/
theorem artifact_paths_collide :
    generate_all_audio (fun t => (t.length : Int))
        [⟨"person1", "hi"⟩, ⟨"person2", "yo"⟩, ⟨"person1", "hi"⟩] "temp"
      = .ok [⟨0, "person1", "hi", "temp/person1_2.mp3"⟩,
             ⟨1, "person2", "yo", "temp/person2_2.mp3"⟩,
             ⟨2, "person1", "hi", "temp/person1_2.mp3"⟩] ∧
    syncOutputPath "temp/person1_2.mp3" "temp" = "temp/person1_2_synced.mp4" :=
  ⟨rfl, rfl⟩

/-- C9 amended: each audio artifact's filename is output_dir/speaker_
(hash(text) mod 10000).mp3 — determined by the speaker and the text hash
alone, with no stage or segment-index component — and the lip-sync video
filename appends _synced to the audio basename; consequently any two
artifacts with equal speaker and equal text receive the same path, so
distinct segments are not guaranteed distinct files. -/
theorem artifact_paths_from_speaker_and_text_hash (h : String → Int)
    (dir : String) (segs : List Segment) (files : List AudioFile)
    (hok : generate_all_audio h segs dir = .ok files) :
    (∀ f ∈ files, f.audio_path
      = dir ++ "/" ++ f.speaker ++ "_" ++ toString (h f.text % 10000) ++ ".mp3") ∧
    (∀ f ∈ files, ∀ g ∈ files, f.speaker = g.speaker → f.text = g.text →
      f.audio_path = g.audio_path) := by
  have hpath := (audioLoop_ok h dir segs 0 files hok).2.2.2.2
  refine ⟨hpath, ?_⟩
  intro f hf g hg hsp htx
  rw [hpath f hf, hpath g hg, hsp, htx]

/-- Witness for the amended C9 at the middle artifact of a concrete run. -/
theorem artifact_paths_from_speaker_and_text_hash_witness :
    (AudioFile.audio_path ⟨1, "person2", "yo", "temp/person2_2.mp3"⟩)
      = "temp" ++ "/"
        ++ (AudioFile.speaker ⟨1, "person2", "yo", "temp/person2_2.mp3"⟩) ++ "_"
        ++ toString ((fun t : String => (t.length : Int))
            (AudioFile.text ⟨1, "person2", "yo", "temp/person2_2.mp3"⟩) % 10000)
        ++ ".mp3" :=
  (artifact_paths_from_speaker_and_text_hash (fun t : String => (t.length : Int))
    "temp" [⟨"person1", "hi"⟩, ⟨"person2", "yo"⟩, ⟨"person1", "hi"⟩]
    [⟨0, "person1", "hi", "temp/person1_2.mp3"⟩,
     ⟨1, "person2", "yo", "temp/person2_2.mp3"⟩,
     ⟨2, "person1", "hi", "temp/person1_2.mp3"⟩] rfl).1
    ⟨1, "person2", "yo", "temp/person2_2.mp3"⟩ (by simp)
